import Mathlib

/-!
Shallow embedding of the OpTiMSoC network-on-chip adapter driver
(drivers/char/optimsoc-noc.c).

The source file contains two successive variants of the driver:

* the buffering variant (per-minor adapters with a per-endpoint input
  buffer), embedded in namespace OptimsocNoc.Buffering;
* the classifying variant (shared scratch buffer, packet-class dispatch
  table and domain-readiness bitmap), embedded in namespace
  OptimsocNoc.Classifying.

Hardware is modelled as follows: each endpoint's receive port is a FIFO
of 32-bit words, given as a List Nat of the words currently available;
reading the port (receive) pops the first word, and reading an empty
port yields 0, matching the wire protocol in which a length word of 0
means "no packet".  Writes to a send port are recorded in a trace of
(endpoint, word) pairs in program order.  Class handlers are modelled by
a registration predicate (Nat -> Bool) together with an event trace that
records each dispatch decision the interrupt handler makes, since the
only observable effects of the C handler call are which handler runs and
with which arguments.
-/

namespace OptimsocNoc

/-- Linux error number EBUSY (device or resource busy). -/
def EBUSY : Int := 16

/-- Linux error number EINVAL (invalid argument). -/
def EINVAL : Int := 22

/-- NR_ENDPOINTS: size of the static adapters table in the buffering
variant. -/
def NR_ENDPOINTS : Nat := 16

/-- OPTIMSOC_NA_MAX_PACKET_SIZE: maximum packet size in words. -/
def OPTIMSOC_NA_MAX_PACKET_SIZE : Nat := 32

/-- OPTIMSOC_DEST_MSB. -/
def OPTIMSOC_DEST_MSB : Nat := 31

/-- OPTIMSOC_DEST_LSB. -/
def OPTIMSOC_DEST_LSB : Nat := 27

/-- OPTIMSOC_CLASS_MSB. -/
def OPTIMSOC_CLASS_MSB : Nat := 26

/-- OPTIMSOC_CLASS_LSB. -/
def OPTIMSOC_CLASS_LSB : Nat := 24

/-- OPTIMSOC_CLASS_NUM: number of packet classes. -/
def OPTIMSOC_CLASS_NUM : Nat := 8

/-- OPTIMSOC_SRC_MSB. -/
def OPTIMSOC_SRC_MSB : Nat := 23

/-- OPTIMSOC_SRC_LSB. -/
def OPTIMSOC_SRC_LSB : Nat := 19

/-- EXTRACT(x,msb,lsb) = (x >> lsb) & ~(~0 << (msb-lsb+1)): the bit
field of x between bit positions lsb and msb, inclusive. -/
def EXTRACT (x msb lsb : Nat) : Nat := (x >>> lsb) &&& (2 ^ (msb - lsb + 1) - 1)

/-- Perform n consecutive receive() reads on one endpoint FIFO: returns
the n words read (an empty port reads as 0) and the remaining FIFO
contents. -/
def recvN : Nat → List Nat → List Nat × List Nat
  | 0, l => ([], l)
  | n + 1, [] => (0 :: (recvN n []).1, (recvN n []).2)
  | n + 1, w :: l => (w :: (recvN n l).1, (recvN n l).2)

theorem recvN_snd (n : Nat) (l : List Nat) : (recvN n l).2 = l.drop n := by
  induction n generalizing l with
  | zero => rfl
  | succ n ih =>
    cases l with
    | nil => simpa [recvN] using ih []
    | cons w l => simpa [recvN] using ih l

theorem recvN_fst_length (n : Nat) (l : List Nat) : (recvN n l).1.length = n := by
  induction n generalizing l with
  | zero => rfl
  | succ n ih =>
    cases l with
    | nil => simpa [recvN] using ih []
    | cons w l => simpa [recvN] using ih l

/-- The net effect of one endpoint-loop iteration of irq_handler on that
endpoint's receive FIFO: the length word is popped, and (when it is
nonzero) the declared number of payload words is read, whether the
packet is dropped as oversized or copied into a buffer. -/
def fifoStep : List Nat → List Nat
  | [] => []
  | size :: rest => if size = 0 then rest else (recvN size rest).2

/-- Whether an endpoint reports empty in a pass of irq_handler: the
receive port yields a length word of 0 (either no data or a literal 0
word). -/
def obsEmpty : List Nat → Bool
  | [] => true
  | size :: _ => size == 0

theorem fifoStep_length_le (l : List Nat) : (fifoStep l).length ≤ l.length := by
  cases l with
  | nil => simp [fifoStep]
  | cons size rest =>
    by_cases h : size = 0
    · simp [fifoStep, h]
    · simp only [fifoStep, if_neg h, recvN_snd]
      calc (rest.drop size).length ≤ rest.length := by
            rw [List.length_drop]; omega
        _ ≤ (size :: rest).length := by simp

theorem fifoStep_length_lt (l : List Nat) (h : l ≠ []) :
    (fifoStep l).length < l.length := by
  cases l with
  | nil => exact absurd rfl h
  | cons size rest =>
    by_cases h0 : size = 0
    · simp [fifoStep, h0]
    · simp only [fifoStep, if_neg h0, recvN_snd, List.length_cons, List.length_drop]
      omega

theorem obsEmpty_false_ne_nil (l : List Nat) (h : obsEmpty l = false) : l ≠ [] := by
  intro hl
  subst hl
  simp [obsEmpty] at h

/-- Total number of words waiting across all receive FIFOs; this is the
termination measure for the scan loop of irq_handler. -/
def totalLen (l : List (List Nat)) : Nat := (l.map List.length).sum

theorem totalLen_fifoStep_le (l : List (List Nat)) :
    totalLen (l.map fifoStep) ≤ totalLen l := by
  induction l with
  | nil => simp [totalLen]
  | cons x l ih =>
    simp only [totalLen, List.map_cons, List.sum_cons] at *
    exact Nat.add_le_add (fifoStep_length_le x) ih

theorem totalLen_fifoStep_lt (l : List (List Nat))
    (h : ∃ x ∈ l, obsEmpty x = false) :
    totalLen (l.map fifoStep) < totalLen l := by
  induction l with
  | nil => simp at h
  | cons x l ih =>
    obtain ⟨y, hy, hyf⟩ := h
    simp only [totalLen, List.map_cons, List.sum_cons]
    rcases List.mem_cons.mp hy with rfl | hyl
    · exact Nat.add_lt_add_of_lt_of_le
        (fifoStep_length_lt y (obsEmpty_false_ne_nil y hyf))
        (totalLen_fifoStep_le l)
    · exact Nat.add_lt_add_of_le_of_lt (fifoStep_length_le x) (ih ⟨y, hyl, hyf⟩)

/-- An always-taken while loop that performs passes and exits exactly
when the pass it just performed reported quiescence stops at the first
quiescent pass.  Shared by the two irq_handler variants. -/
theorem loop_first_quiescent {σ : Type} (pass : σ → σ) (emptyQ : σ → Prop)
    [DecidablePred emptyQ] (meas : σ → Nat) (run : σ → σ)
    (hrun : ∀ s, run s = if emptyQ s then pass s else run (pass s))
    (hdec : ∀ s, ¬ emptyQ s → meas (pass s) < meas s) (s : σ) :
    ∃ k, (∀ j, j < k → ¬ emptyQ (pass^[j] s)) ∧ emptyQ (pass^[k] s) ∧
      run s = pass^[k + 1] s := by
  suffices H : ∀ n s, meas s = n →
      ∃ k, (∀ j, j < k → ¬ emptyQ (pass^[j] s)) ∧ emptyQ (pass^[k] s) ∧
        run s = pass^[k + 1] s by
    exact H (meas s) s rfl
  intro n
  induction n using Nat.strong_induction_on with
  | _ n ih =>
    intro s hm
    by_cases he : emptyQ s
    · refine ⟨0, fun j hj => absurd hj (Nat.not_lt_zero j), by simpa using he, ?_⟩
      rw [hrun s, if_pos he, Function.iterate_one]
    · obtain ⟨k, h1, h2, h3⟩ := ih (meas (pass s)) (hm ▸ hdec s he) (pass s) rfl
      refine ⟨k + 1, ?_, ?_, ?_⟩
      · intro j hj
        cases j with
        | zero => simpa using he
        | succ j =>
          rw [Function.iterate_succ_apply]
          exact h1 j (Nat.lt_of_succ_lt_succ hj)
      · rw [Function.iterate_succ_apply]
        exact h2
      · rw [hrun s, if_neg he, h3, ← Function.iterate_succ_apply]

namespace Buffering

/-- One entry of the static adapters table of the buffering variant,
paired with its endpoint's hardware receive FIFO: fifo models the words
available at the endpoint's receive port, buf models the contents of
adapters[ep].buffer (one packet's worth of words). -/
structure Ep where
  fifo : List Nat
  buf : List Nat
deriving DecidableEq

/-- The body of the endpoint loop of irq_handler (buffering variant) for
one endpoint: read the size word; size 0 means the endpoint is empty
this pass; an oversized packet (size greater than
OPTIMSOC_NA_MAX_PACKET_SIZE) is drained by reading and discarding size
words; otherwise size words are read and copied into the first size
slots of the adapter's buffer.  The Bool reports whether this endpoint
counted as empty. -/
def stepEp (e : Ep) : Ep × Bool :=
  match e.fifo with
  | [] => (e, true)
  | size :: rest =>
    if size = 0 then ({ e with fifo := rest }, true)
    else if size > OPTIMSOC_NA_MAX_PACKET_SIZE then
      ({ e with fifo := (recvN size rest).2 }, false)
    else
      ({ fifo := (recvN size rest).2,
         buf := (recvN size rest).1 ++ e.buf.drop size }, false)

theorem stepEp_fst_fifo (e : Ep) : ((stepEp e).1).fifo = fifoStep e.fifo := by
  obtain ⟨f, b⟩ := e
  cases f with
  | nil => rfl
  | cons size rest =>
    by_cases h0 : size = 0
    · simp [stepEp, fifoStep, h0]
    · by_cases h32 : size > OPTIMSOC_NA_MAX_PACKET_SIZE
      · simp [stepEp, fifoStep, h0, h32]
      · simp [stepEp, fifoStep, h0, h32]

theorem stepEp_snd (e : Ep) : (stepEp e).2 = obsEmpty e.fifo := by
  obtain ⟨f, b⟩ := e
  cases f with
  | nil => rfl
  | cons size rest =>
    by_cases h0 : size = 0
    · simp [stepEp, obsEmpty, h0]
    · by_cases h32 : size > OPTIMSOC_NA_MAX_PACKET_SIZE
      · simp [stepEp, obsEmpty, h0, h32]
      · simp [stepEp, obsEmpty, h0, h32]

/-- One full pass of irq_handler (buffering variant) over all endpoints:
processes every endpoint in order and counts (in the second component)
how many endpoints reported empty, as the local variable empty does. -/
def passA : List Ep → List Ep × Nat
  | [] => ([], 0)
  | e :: rest =>
    ((stepEp e).1 :: (passA rest).1,
     if (stepEp e).2 then (passA rest).2 + 1 else (passA rest).2)

theorem passA_fst_map (s : List Ep) : (passA s).1 = s.map (fun e => (stepEp e).1) := by
  induction s with
  | nil => rfl
  | cons e rest ih => simp [passA, ih]

theorem passA_snd_countP (s : List Ep) :
    (passA s).2 = s.countP (fun e => obsEmpty e.fifo) := by
  induction s with
  | nil => rfl
  | cons e rest ih =>
    simp only [passA, List.countP_cons, stepEp_snd, ih]
    by_cases h : obsEmpty e.fifo <;> simp [h]

theorem passA_snd_eq_length_iff (s : List Ep) :
    (passA s).2 = s.length ↔ ∀ e ∈ s, obsEmpty e.fifo = true := by
  rw [passA_snd_countP]
  exact List.countP_eq_length

/-- Total number of words waiting across all endpoint receive FIFOs. -/
def totalWords (s : List Ep) : Nat := totalLen (s.map fun e => e.fifo)

theorem passA_fst_fifos (s : List Ep) :
    ((passA s).1.map fun e => e.fifo) = (s.map fun e => e.fifo).map fifoStep := by
  rw [passA_fst_map, List.map_map, List.map_map]
  exact List.map_congr_left fun e _ => stepEp_fst_fifo e

theorem passA_words_lt (s : List Ep) (h : (passA s).2 ≠ s.length) :
    totalWords (passA s).1 < totalWords s := by
  unfold totalWords
  rw [passA_fst_fifos]
  apply totalLen_fifoStep_lt
  have h2 : ¬ ∀ e ∈ s, obsEmpty e.fifo = true := fun hc =>
    h ((passA_snd_eq_length_iff s).mpr hc)
  push_neg at h2
  obtain ⟨e, he, hef⟩ := h2
  exact ⟨e.fifo, List.mem_map_of_mem _ he, Bool.not_eq_true _ ▸ hef⟩

/-- The while(1) loop of irq_handler (buffering variant): perform a full
pass over all endpoints, and exit exactly when the pass counted every
endpoint as empty (empty == _num_endpoints); otherwise scan again. -/
def irq_handler (s : List Ep) : List Ep :=
  if (passA s).2 = s.length then (passA s).1 else irq_handler (passA s).1
termination_by totalWords s
decreasing_by
  exact passA_words_lt s (by assumption)

/-- The state transformation of one pass (used to phrase where the loop
stops). -/
def passIter (s : List Ep) : List Ep := (passA s).1

theorem passA_length (s : List Ep) : (passA s).1.length = s.length := by
  rw [passA_fst_map, List.length_map]

end Buffering

namespace Classifying

/-- A dispatch decision taken by irq_handler (classifying variant) for
one packet: either the registered handler of the extracted class is
invoked with the shared scratch buffer and the declared packet size
(cls_handlers[class](_buffer, size)), or the packet is dropped with the
unknown-class diagnostic (the printk in the cls_handlers[class] == 0
branch). -/
inductive Event where
  | invoked (cls : Nat) (buf : List Nat) (size : Nat)
  | dropUnknown (cls : Nat)
deriving DecidableEq

/-- The process-wide mutable state shared by all endpoints in the
classifying variant: buffer models the contents of the scratch packet
buffer _buffer, ready models the readiness bitmap _domains_ready (one
32-bit word per domain index; index -1 can arise when
optimsoc_get_tilerank fails), events is the trace of dispatch decisions
made so far. -/
structure Shared where
  buffer : List Nat
  ready : Int → Nat
  events : List Event

/-- optimsoc_get_tilerank: index of the tile in the compute-tile list,
or -1 when the tile is not listed. -/
def tilerankAux : List Nat → Nat → Nat → Int
  | [], _, _ => -1
  | c :: rest, tile, i => if c = tile then (i : Int) else tilerankAux rest tile (i + 1)

/-- optimsoc_get_tilerank over the compute-tile list read from the
register window. -/
def optimsoc_get_tilerank (ctlist : List Nat) (tile : Nat) : Int :=
  tilerankAux ctlist tile 0

/-- The body of the endpoint loop of irq_handler (classifying variant)
for one endpoint, parameterised by the registration state of
cls_handlers (hnd) and the compute-tile list (ct).  Reads the size word;
size 0 counts the endpoint as empty; an oversized packet is drained by
reading size words without touching the scratch buffer, otherwise size
words are copied into the scratch buffer.  In both non-empty cases the
handler then reads the header from _buffer[0], extracts the class, and,
for the reserved class with the ready bit set, ors the bit of the
header's endpoint id into the readiness word of the domain of the
header's source tile; finally the packet is dispatched: dropped with a
diagnostic when no handler is registered for the class, otherwise the
handler is invoked with the scratch buffer and the declared size. -/
def stepOne (hnd : Nat → Bool) (ct : List Nat) (fifo : List Nat) (sh : Shared) :
    List Nat × Shared × Bool :=
  match fifo with
  | [] => ([], sh, true)
  | size :: rest =>
    if size = 0 then (rest, sh, true)
    else
      let sh1 := if size > OPTIMSOC_NA_MAX_PACKET_SIZE then sh
        else { sh with buffer := (recvN size rest).1 ++ sh.buffer.drop size }
      let header := sh1.buffer.getD 0 0
      let cls := EXTRACT header OPTIMSOC_CLASS_MSB OPTIMSOC_CLASS_LSB
      let sh2 := if cls = OPTIMSOC_CLASS_NUM - 1 ∧ (header &&& 2) >>> 1 ≠ 0 then
          { sh1 with ready := fun d =>
              if d = optimsoc_get_tilerank ct (EXTRACT header OPTIMSOC_SRC_MSB OPTIMSOC_SRC_LSB)
              then (sh1.ready d ||| 1 <<< EXTRACT header 9 2) % 2 ^ 32
              else sh1.ready d }
        else sh1
      let sh3 := if hnd cls then
          { sh2 with events := sh2.events ++ [Event.invoked cls sh2.buffer size] }
        else
          { sh2 with events := sh2.events ++ [Event.dropUnknown cls] }
      ((recvN size rest).2, sh3, false)

theorem stepOne_fst (hnd : Nat → Bool) (ct : List Nat) (fifo : List Nat)
    (sh : Shared) : (stepOne hnd ct fifo sh).1 = fifoStep fifo := by
  cases fifo with
  | nil => rfl
  | cons size rest =>
    by_cases h0 : size = 0
    · simp [stepOne, fifoStep, h0]
    · simp [stepOne, fifoStep, h0]

theorem stepOne_snd_snd (hnd : Nat → Bool) (ct : List Nat) (fifo : List Nat)
    (sh : Shared) : (stepOne hnd ct fifo sh).2.2 = obsEmpty fifo := by
  cases fifo with
  | nil => rfl
  | cons size rest =>
    by_cases h0 : size = 0
    · simp [stepOne, obsEmpty, h0]
    · simp [stepOne, obsEmpty, h0]

/-- One full pass of irq_handler (classifying variant) over all
endpoints in order, threading the shared state through the endpoint loop
and counting (in the last component) how many endpoints reported
empty. -/
def passB (hnd : Nat → Bool) (ct : List Nat) :
    List (List Nat) → Shared → List (List Nat) × Shared × Nat
  | [], sh => ([], sh, 0)
  | fifo :: rest, sh =>
    ((stepOne hnd ct fifo sh).1 :: (passB hnd ct rest (stepOne hnd ct fifo sh).2.1).1,
     (passB hnd ct rest (stepOne hnd ct fifo sh).2.1).2.1,
     if (stepOne hnd ct fifo sh).2.2
     then (passB hnd ct rest (stepOne hnd ct fifo sh).2.1).2.2 + 1
     else (passB hnd ct rest (stepOne hnd ct fifo sh).2.1).2.2)

theorem passB_fst (hnd : Nat → Bool) (ct : List Nat) (fifos : List (List Nat))
    (sh : Shared) : (passB hnd ct fifos sh).1 = fifos.map fifoStep := by
  induction fifos generalizing sh with
  | nil => rfl
  | cons fifo rest ih => simp [passB, stepOne_fst, ih]

theorem passB_cnt (hnd : Nat → Bool) (ct : List Nat) (fifos : List (List Nat))
    (sh : Shared) : (passB hnd ct fifos sh).2.2 = fifos.countP obsEmpty := by
  induction fifos generalizing sh with
  | nil => rfl
  | cons fifo rest ih =>
    simp only [passB, stepOne_snd_snd, List.countP_cons, ih]
    by_cases h : obsEmpty fifo <;> simp [h]

theorem passB_cnt_eq_length_iff (hnd : Nat → Bool) (ct : List Nat)
    (fifos : List (List Nat)) (sh : Shared) :
    (passB hnd ct fifos sh).2.2 = fifos.length ↔ ∀ f ∈ fifos, obsEmpty f = true := by
  rw [passB_cnt]
  exact List.countP_eq_length

theorem passB_words_lt (hnd : Nat → Bool) (ct : List Nat)
    (fifos : List (List Nat)) (sh : Shared)
    (h : (passB hnd ct fifos sh).2.2 ≠ fifos.length) :
    totalLen (passB hnd ct fifos sh).1 < totalLen fifos := by
  rw [passB_fst]
  apply totalLen_fifoStep_lt
  have h2 : ¬ ∀ f ∈ fifos, obsEmpty f = true := fun hc =>
    h ((passB_cnt_eq_length_iff hnd ct fifos sh).mpr hc)
  push_neg at h2
  obtain ⟨f, hf, hff⟩ := h2
  exact ⟨f, hf, Bool.not_eq_true _ ▸ hff⟩

/-- The while(1) loop of irq_handler (classifying variant) on the pair
of the endpoint receive FIFOs and the shared state: pass over all
endpoints, and exit exactly when the pass counted every endpoint as
empty; otherwise scan again. -/
def irq_handler (hnd : Nat → Bool) (ct : List Nat)
    (st : List (List Nat) × Shared) : List (List Nat) × Shared :=
  if (passB hnd ct st.1 st.2).2.2 = st.1.length
  then ((passB hnd ct st.1 st.2).1, (passB hnd ct st.1 st.2).2.1)
  else irq_handler hnd ct ((passB hnd ct st.1 st.2).1, (passB hnd ct st.1 st.2).2.1)
termination_by totalLen st.1
decreasing_by
  exact passB_words_lt hnd ct st.1 st.2 (by assumption)

/-- The state transformation of one pass (used to phrase where the loop
stops). -/
def passIter (hnd : Nat → Bool) (ct : List Nat)
    (st : List (List Nat) × Shared) : List (List Nat) × Shared :=
  ((passB hnd ct st.1 st.2).1, (passB hnd ct st.1 st.2).2.1)

/-- device_open of the classifying variant, acting on the global open
count nopen: fails with EBUSY when the count is positive, otherwise
increments it (the ioremap of the register window is an external
side effect with no bearing on the open count).  Returns the status and
the new count. -/
def device_open (nopen : Int) : Int × Int :=
  if nopen > 0 then (-EBUSY, nopen) else (0, nopen + 1)

/-- device_release of the classifying variant: decrements the global
open count unconditionally and reports success. -/
def device_release (nopen : Int) : Int × Int := (0, nopen - 1)

end Classifying

/-- A write of one word to the send register of an endpoint, recorded in
the trace of (endpoint, word) register writes in program order. -/
def send (ep : Nat) (word : Nat) (tr : List (Nat × Nat)) : List (Nat × Nat) :=
  tr ++ [(ep, word)]

/-- The payload loop of optimsoc_mp_simple_send: send each word in
order. -/
def sendWords (ep : Nat) : List Nat → List (Nat × Nat) → List (Nat × Nat)
  | [], tr => tr
  | w :: ws, tr => sendWords ep ws (send ep w tr)

/-- optimsoc_mp_simple_send: write the length word size to the
endpoint's send register, then write buf[0] .. buf[size-1] in order.
The same function appears verbatim in both variants of the driver. -/
def optimsoc_mp_simple_send (endpoint : Nat) (size : Nat) (buf : List Nat)
    (tr : List (Nat × Nat)) : List (Nat × Nat) :=
  sendWords endpoint ((List.range size).map fun i => buf.getD i 0)
    (send endpoint size tr)

namespace Buffering

/-- One entry of the static adapters table as device_open and
device_release see it: the open count and whether the input buffer has
been allocated (the buffer pointer being non-NULL). -/
structure Adapter where
  nopen : Int
  allocated : Bool
deriving DecidableEq

/-- device_open of the buffering variant for the device with the given
minor number: fails with EBUSY when the adapter's open count is
positive and leaves the table unchanged; otherwise allocates the
adapter's buffer and increments its open count.  Returns the status and
the new adapters table. -/
def device_open (adapters : Nat → Adapter) (minor : Nat) :
    Int × (Nat → Adapter) :=
  if (adapters minor).nopen > 0 then (-EBUSY, adapters)
  else
    (0, fun m => if m = minor
      then { nopen := (adapters minor).nopen + 1, allocated := true }
      else adapters m)

/-- device_release of the buffering variant: decrements the adapter's
open count unconditionally (the buffer is not freed) and reports
success. -/
def device_release (adapters : Nat → Adapter) (minor : Nat) :
    Int × (Nat → Adapter) :=
  (0, fun m => if m = minor
    then { adapters minor with nopen := (adapters minor).nopen - 1 }
    else adapters m)

/-- device_read of the buffering variant: computes the minor number and
returns 0 at once, for every minor number and requested length — it
neither blocks, nor transfers data, nor validates the minor. -/
def device_read (minor : Nat) (length : Nat) : Int := 0

/-- device_write of the buffering variant (the classifying variant's
device_write is character-for-character identical): returns -EINVAL
unconditionally and performs no send-register writes, so the trace of
register writes is returned unchanged. -/
def device_write (minor : Nat) (len : Nat) (tr : List (Nat × Nat)) :
    Int × List (Nat × Nat) :=
  (-EINVAL, tr)

end Buffering

theorem sendWords_eq (ep : Nat) (ws : List Nat) (tr : List (Nat × Nat)) :
    sendWords ep ws tr = tr ++ ws.map (fun w => (ep, w)) := by
  induction ws generalizing tr with
  | nil => simp [sendWords]
  | cons w ws ih => simp [sendWords, send, ih]

theorem getD_cons_succ (a : Nat) (l : List Nat) (n : Nat) :
    (a :: l).getD (n + 1) 0 = l.getD n 0 := rfl

theorem range_map_getD (l : List Nat) :
    (List.range l.length).map (fun i => l.getD i 0) = l := by
  induction l with
  | nil => rfl
  | cons a l ih =>
    rw [List.length_cons, List.range_succ_eq_map, List.map_cons, List.map_map]
    exact congrArg₂ List.cons rfl ih

theorem getD_append_left (xs ys : List Nat) (h : xs ≠ []) :
    (xs ++ ys).getD 0 0 = xs.getD 0 0 := by
  cases xs with
  | nil => exact absurd rfl h
  | cons a xs => rfl

/-- C8: For every endpoint index, word count size, and word array buf
(of size words), the direct send operation writes exactly size + 1 words
to that endpoint's send register: first the length word equal to size,
then buf[0] through buf[size-1] in index order, awaiting no
acknowledgment (the trace of register writes is the only effect). -/
theorem mp_simple_send_length_then_payload (endpoint size : Nat)
    (buf : List Nat) (tr : List (Nat × Nat)) (h : buf.length = size) :
    optimsoc_mp_simple_send endpoint size buf tr
      = tr ++ (endpoint, size) :: buf.map (fun w => (endpoint, w))
    ∧ (optimsoc_mp_simple_send endpoint size buf tr).length
      = tr.length + (size + 1) := by
  subst h
  constructor
  · rw [optimsoc_mp_simple_send, range_map_getD, sendWords_eq, send]
    simp
  · rw [optimsoc_mp_simple_send, range_map_getD, sendWords_eq, send]
    simp

theorem mp_simple_send_length_then_payload_witness :
    ([10, 20] : List Nat).length = 2 ∧
    (optimsoc_mp_simple_send 3 2 [10, 20] []
       = ([] : List (Nat × Nat)) ++ (3, 2) :: ([10, 20] : List Nat).map (fun w => (3, w))
     ∧ (optimsoc_mp_simple_send 3 2 [10, 20] []).length
       = ([] : List (Nat × Nat)).length + (2 + 1)) :=
  ⟨rfl, mp_simple_send_length_then_payload 3 2 [10, 20] [] rfl⟩

/-- C1 counterexample: the claim says a read with a minor number at or
above the endpoint count returns the invalid-argument error; with the
adapters table sized NR_ENDPOINTS = 16, minor 16 is invalid for every
possible endpoint count, yet device_read returns 0, not -EINVAL. -/
theorem device_read_invalid_minor_counterexample :
    16 ≥ NR_ENDPOINTS ∧ Buffering.device_read 16 4 = 0 ∧
      Buffering.device_read 16 4 ≠ -EINVAL := by
  refine ⟨by decide, rfl, by decide⟩

/-- C1 (amended): the read operation returns 0 immediately for every
minor number and every requested length; it never blocks, never
transfers data from the endpoint buffer, and never returns an error —
in particular an invalid minor does not produce -EINVAL. -/
theorem device_read_returns_zero (minor length : Nat) :
    Buffering.device_read minor length = 0 ∧
      Buffering.device_read minor length ≠ -EINVAL := by
  refine ⟨rfl, ?_⟩
  show (0 : Int) ≠ -EINVAL
  decide

/-- C7 counterexample: the claim says the write operation sends the
bytes and fails with the invalid-argument error exactly when the minor
number is at or above the endpoint count; but for minor 0 — valid for
any nonzero endpoint count — device_write still returns -EINVAL and
writes nothing to the send port. -/
theorem device_write_valid_minor_counterexample :
    0 < NR_ENDPOINTS ∧ Buffering.device_write 0 8 [] = (-EINVAL, []) := by
  exact ⟨by decide, rfl⟩

/-- C7 (amended): the write operation fails with -EINVAL for every
request, regardless of the minor number and length, and performs no
writes to any endpoint's send port. -/
theorem device_write_always_einval (minor len : Nat) (tr : List (Nat × Nat)) :
    Buffering.device_write minor len tr = (-EINVAL, tr) := rfl

/-- C4: opening an endpoint that is already open (open count positive)
fails with EBUSY and leaves the whole adapters table unchanged; from a
closed endpoint, open succeeds, a second open fails with EBUSY without
changing the state, and after a release a subsequent open succeeds
again. -/
theorem device_open_busy_and_reopen :
    (∀ (a : Nat → Buffering.Adapter) (m : Nat), (a m).nopen > 0 →
       Buffering.device_open a m = (-EBUSY, a))
    ∧ (∀ (a : Nat → Buffering.Adapter) (m : Nat), (a m).nopen = 0 →
       (Buffering.device_open a m).1 = 0
       ∧ Buffering.device_open (Buffering.device_open a m).2 m
           = (-EBUSY, (Buffering.device_open a m).2)
       ∧ (Buffering.device_open
            ((Buffering.device_release (Buffering.device_open a m).2 m).2) m).1
           = 0) := by
  constructor
  · intro a m h
    rw [Buffering.device_open, if_pos h]
  · intro a m h
    refine ⟨?_, ?_, ?_⟩
    · simp [Buffering.device_open, h]
    · simp [Buffering.device_open, Buffering.device_release, h]
    · simp [Buffering.device_open, Buffering.device_release, h]

theorem device_open_busy_and_reopen_witness :
    ((fun _ : Nat => ({ nopen := 1, allocated := true } : Buffering.Adapter)) 2).nopen > 0
    ∧ Buffering.device_open (fun _ => { nopen := 1, allocated := true }) 2
        = (-EBUSY, fun _ => { nopen := 1, allocated := true })
    ∧ ((fun _ : Nat => ({ nopen := 0, allocated := false } : Buffering.Adapter)) 3).nopen = 0
    ∧ (Buffering.device_open (fun _ => { nopen := 0, allocated := false }) 3).1 = 0
    ∧ (Buffering.device_open
         ((Buffering.device_release
            (Buffering.device_open (fun _ => { nopen := 0, allocated := false }) 3).2 3).2) 3).1
        = 0 :=
  ⟨by decide,
   device_open_busy_and_reopen.1 (fun _ => { nopen := 1, allocated := true }) 2 (by decide),
   rfl,
   (device_open_busy_and_reopen.2 (fun _ => { nopen := 0, allocated := false }) 3 rfl).1,
   (device_open_busy_and_reopen.2 (fun _ => { nopen := 0, allocated := false }) 3 rfl).2.2⟩

/-- C10: device_release decrements the open count without checking that
it is positive, so releasing a closed endpoint drives the count to -1,
after which two consecutive opens both succeed (ending with count 1),
breaking the at-most-one-concurrent-user guarantee.  The same holds for
the classifying variant's global open count. -/
theorem unbalanced_release_two_opens :
    (∀ (a : Nat → Buffering.Adapter) (m : Nat), (a m).nopen = 0 →
       (((Buffering.device_release a m).2) m).nopen = -1
       ∧ (Buffering.device_open (Buffering.device_release a m).2 m).1 = 0
       ∧ (Buffering.device_open
            (Buffering.device_open (Buffering.device_release a m).2 m).2 m).1 = 0
       ∧ ((Buffering.device_open
            (Buffering.device_open (Buffering.device_release a m).2 m).2 m).2 m).nopen = 1)
    ∧ (Classifying.device_release 0 = (0, -1)
       ∧ Classifying.device_open (Classifying.device_release 0).2 = (0, 0)
       ∧ Classifying.device_open
           (Classifying.device_open (Classifying.device_release 0).2).2 = (0, 1)) := by
  constructor
  · intro a m h
    refine ⟨?_, ?_, ?_, ?_⟩
    · simp [Buffering.device_release, h]
    · simp [Buffering.device_open, Buffering.device_release, h]
    · simp [Buffering.device_open, Buffering.device_release, h]
    · simp [Buffering.device_open, Buffering.device_release, h]
  · refine ⟨rfl, by decide, by decide⟩

theorem unbalanced_release_two_opens_witness :
    ((fun _ : Nat => ({ nopen := 0, allocated := false } : Buffering.Adapter)) 1).nopen = 0
    ∧ (((Buffering.device_release (fun _ => { nopen := 0, allocated := false }) 1).2) 1).nopen = -1
    ∧ (Buffering.device_open
         (Buffering.device_release (fun _ => { nopen := 0, allocated := false }) 1).2 1).1 = 0
    ∧ (Buffering.device_open
         (Buffering.device_open
           (Buffering.device_release (fun _ => { nopen := 0, allocated := false }) 1).2 1).2 1).1
        = 0 :=
  ⟨rfl,
   (unbalanced_release_two_opens.1 (fun _ => { nopen := 0, allocated := false }) 1 rfl).1,
   (unbalanced_release_two_opens.1 (fun _ => { nopen := 0, allocated := false }) 1 rfl).2.1,
   (unbalanced_release_two_opens.1 (fun _ => { nopen := 0, allocated := false }) 1 rfl).2.2.1⟩

/-- C2: in both variants, a packet whose length word size exceeds
OPTIMSOC_NA_MAX_PACKET_SIZE is drained by reading and discarding
exactly size further words from that endpoint's receive port (the FIFO
loses its next size words and nothing else), and no packet buffer is
written: the buffering variant's adapter buffer and the classifying
variant's scratch buffer are left unchanged. -/
theorem oversized_packet_drained_buffers_untouched :
    (∀ (e : Buffering.Ep) (size : Nat) (rest : List Nat),
       e.fifo = size :: rest → size > OPTIMSOC_NA_MAX_PACKET_SIZE →
       Buffering.stepEp e = ({ e with fifo := rest.drop size }, false))
    ∧ (∀ (hnd : Nat → Bool) (ct : List Nat) (size : Nat) (rest : List Nat)
         (sh : Classifying.Shared), size > OPTIMSOC_NA_MAX_PACKET_SIZE →
       (Classifying.stepOne hnd ct (size :: rest) sh).1 = rest.drop size
       ∧ (Classifying.stepOne hnd ct (size :: rest) sh).2.1.buffer = sh.buffer) := by
  constructor
  · rintro ⟨f, b⟩ size rest h h32
    have h0 : ¬ size = 0 := by
      intro hz
      rw [hz] at h32
      exact absurd h32 (by decide)
    subst h
    simp [Buffering.stepEp, if_neg h0, if_pos h32, recvN_snd]
  · intro hnd ct size rest sh h32
    have h0 : ¬ size = 0 := by
      intro hz
      rw [hz] at h32
      exact absurd h32 (by decide)
    constructor
    · rw [Classifying.stepOne_fst]
      simp [fifoStep, if_neg h0, recvN_snd]
    · simp only [Classifying.stepOne, if_neg h0, if_pos h32]
      split <;> split <;> rfl

theorem oversized_packet_drained_witness :
    (Buffering.Ep.mk [33, 1, 2] [9]).fifo = 33 :: [1, 2]
    ∧ 33 > OPTIMSOC_NA_MAX_PACKET_SIZE
    ∧ Buffering.stepEp ⟨[33, 1, 2], [9]⟩
        = ({ Buffering.Ep.mk [33, 1, 2] [9] with fifo := ([1, 2] : List Nat).drop 33 }, false)
    ∧ (Classifying.stepOne (fun _ => true) [] (33 :: [7, 8])
         ⟨[5], fun _ => 0, []⟩).1 = ([7, 8] : List Nat).drop 33
    ∧ (Classifying.stepOne (fun _ => true) [] (33 :: [7, 8])
         ⟨[5], fun _ => 0, []⟩).2.1.buffer
        = (Classifying.Shared.mk [5] (fun _ => 0) []).buffer :=
  ⟨rfl, by decide,
   oversized_packet_drained_buffers_untouched.1 ⟨[33, 1, 2], [9]⟩ 33 [1, 2] rfl (by decide),
   (oversized_packet_drained_buffers_untouched.2 (fun _ => true) [] 33 [7, 8]
      ⟨[5], fun _ => 0, []⟩ (by decide)).1,
   (oversized_packet_drained_buffers_untouched.2 (fun _ => true) [] 33 [7, 8]
      ⟨[5], fun _ => 0, []⟩ (by decide)).2⟩

theorem recvN_fst_ne_nil (size : Nat) (rest : List Nat) (h : 0 < size) :
    (recvN size rest).1 ≠ [] := by
  intro hn
  have := recvN_fst_length size rest
  rw [hn] at this
  simp at this
  omega

/-- C6: in the classifying variant, a well-sized packet whose extracted
class id has no registered handler is dropped: the only dispatch event
recorded is the unknown-class diagnostic, no handler is invoked, and —
second conjunct — a pass of the multiplexer consumes every endpoint's
FIFO regardless, so the scan continues with the next endpoint rather
than aborting. -/
theorem unregistered_class_packet_dropped :
    (∀ (hnd : Nat → Bool) (ct : List Nat) (size : Nat) (rest : List Nat)
       (sh : Classifying.Shared),
       0 < size → size ≤ OPTIMSOC_NA_MAX_PACKET_SIZE →
       hnd (EXTRACT ((recvN size rest).1.getD 0 0)
              OPTIMSOC_CLASS_MSB OPTIMSOC_CLASS_LSB) = false →
       (Classifying.stepOne hnd ct (size :: rest) sh).2.1.events
         = sh.events ++ [Classifying.Event.dropUnknown
             (EXTRACT ((recvN size rest).1.getD 0 0)
                OPTIMSOC_CLASS_MSB OPTIMSOC_CLASS_LSB)])
    ∧ (∀ (hnd : Nat → Bool) (ct : List Nat) (fifos : List (List Nat))
         (sh : Classifying.Shared),
       (Classifying.passB hnd ct fifos sh).1 = fifos.map fifoStep) := by
  constructor
  · intro hnd ct size rest sh h1 h2 hun
    have h0 : ¬ size = 0 := by omega
    have h32 : ¬ size > OPTIMSOC_NA_MAX_PACKET_SIZE := by omega
    have hhd : ((recvN size rest).1 ++ sh.buffer.drop size).getD 0 0
        = (recvN size rest).1.getD 0 0 :=
      getD_append_left _ _ (recvN_fst_ne_nil size rest h1)
    simp only [Classifying.stepOne, if_neg h0, if_neg h32, hhd, hun]
    split
    · simp_all
    · split <;> rfl
  · exact Classifying.passB_fst

theorem unregistered_class_packet_dropped_witness :
    0 < 2 ∧ 2 ≤ OPTIMSOC_NA_MAX_PACKET_SIZE
    ∧ (fun _ : Nat => false)
        (EXTRACT ((recvN 2 [0x03000000, 5]).1.getD 0 0)
           OPTIMSOC_CLASS_MSB OPTIMSOC_CLASS_LSB) = false
    ∧ (Classifying.stepOne (fun _ => false) [] (2 :: [0x03000000, 5])
         ⟨[], fun _ => 0, []⟩).2.1.events
        = (Classifying.Shared.mk [] (fun _ => 0) []).events
          ++ [Classifying.Event.dropUnknown
               (EXTRACT ((recvN 2 [0x03000000, 5]).1.getD 0 0)
                  OPTIMSOC_CLASS_MSB OPTIMSOC_CLASS_LSB)] :=
  ⟨by decide, by decide, rfl,
   unregistered_class_packet_dropped.1 (fun _ => false) [] 2 [0x03000000, 5]
     ⟨[], fun _ => 0, []⟩ (by decide) (by decide) rfl⟩

/-- C9: in the classifying variant, after draining an oversized packet
the multiplexer still reads the header from the untouched shared scratch
buffer — whatever packet was last copied there — and classifies and
dispatches on that stale header: when a handler is registered for the
stale class, it is invoked with the scratch buffer and the oversized
packet's declared size. -/
theorem oversized_stale_header_dispatch (hnd : Nat → Bool) (ct : List Nat)
    (size : Nat) (rest : List Nat) (sh : Classifying.Shared)
    (h32 : size > OPTIMSOC_NA_MAX_PACKET_SIZE)
    (hreg : hnd (EXTRACT (sh.buffer.getD 0 0)
              OPTIMSOC_CLASS_MSB OPTIMSOC_CLASS_LSB) = true) :
    (Classifying.stepOne hnd ct (size :: rest) sh).1 = rest.drop size
    ∧ (Classifying.stepOne hnd ct (size :: rest) sh).2.1.buffer = sh.buffer
    ∧ (Classifying.stepOne hnd ct (size :: rest) sh).2.1.events
        = sh.events ++ [Classifying.Event.invoked
            (EXTRACT (sh.buffer.getD 0 0) OPTIMSOC_CLASS_MSB OPTIMSOC_CLASS_LSB)
            sh.buffer size] := by
  have h0 : ¬ size = 0 := by
    intro hz
    rw [hz] at h32
    exact absurd h32 (by decide)
  refine ⟨?_, ?_, ?_⟩
  · rw [Classifying.stepOne_fst]
    simp [fifoStep, if_neg h0, recvN_snd]
  · simp only [Classifying.stepOne, if_neg h0, if_pos h32]
    split <;> split <;> rfl
  · simp only [Classifying.stepOne, if_neg h0, if_pos h32, hreg]
    split
    · split <;> rfl
    · simp_all

theorem oversized_stale_header_dispatch_witness :
    33 > OPTIMSOC_NA_MAX_PACKET_SIZE
    ∧ (fun c : Nat => c == 1)
        (EXTRACT ((Classifying.Shared.mk [0x01000000] (fun _ => 0) []).buffer.getD 0 0)
           OPTIMSOC_CLASS_MSB OPTIMSOC_CLASS_LSB) = true
    ∧ (Classifying.stepOne (fun c => c == 1) [] (33 :: [])
         ⟨[0x01000000], fun _ => 0, []⟩).1 = ([] : List Nat).drop 33
    ∧ (Classifying.stepOne (fun c => c == 1) [] (33 :: [])
         ⟨[0x01000000], fun _ => 0, []⟩).2.1.buffer
        = (Classifying.Shared.mk [0x01000000] (fun _ => 0) []).buffer
    ∧ (Classifying.stepOne (fun c => c == 1) [] (33 :: [])
         ⟨[0x01000000], fun _ => 0, []⟩).2.1.events
        = (Classifying.Shared.mk [0x01000000] (fun _ => 0) []).events
          ++ [Classifying.Event.invoked
               (EXTRACT ((Classifying.Shared.mk [0x01000000] (fun _ => 0) []).buffer.getD 0 0)
                  OPTIMSOC_CLASS_MSB OPTIMSOC_CLASS_LSB)
               (Classifying.Shared.mk [0x01000000] (fun _ => 0) []).buffer 33] :=
  ⟨by decide, by decide,
   (oversized_stale_header_dispatch (fun c => c == 1) [] 33 []
      ⟨[0x01000000], fun _ => 0, []⟩ (by decide) (by decide)).1,
   (oversized_stale_header_dispatch (fun c => c == 1) [] 33 []
      ⟨[0x01000000], fun _ => 0, []⟩ (by decide) (by decide)).2.1,
   (oversized_stale_header_dispatch (fun c => c == 1) [] 33 []
      ⟨[0x01000000], fun _ => 0, []⟩ (by decide) (by decide)).2.2⟩

/-- C3 counterexample: the claim says that for a class-7 packet with the
ready bit set no payload handler is invoked even if one is registered
for class 7; but processing such a packet (header 0x0708000E: class 7,
ready bit set, source tile 1, endpoint id 3) with a handler registered
for class 7 records exactly an invocation of that handler. -/
theorem class7_ready_handler_invoked_counterexample :
    (fun c : Nat => c == 7) 7 = true
    ∧ (Classifying.stepOne (fun c => c == 7) [1] [1, 0x0708000E]
         ⟨[], fun _ => 0, []⟩).2.1.events
        = [Classifying.Event.invoked 7 [0x0708000E] 1] := by
  exact ⟨rfl, rfl⟩

/-- C3 (amended): in the classifying variant, a received packet whose
header carries class 7 with the ready bit (bit 1) set causes the
multiplexer to or the bit indexed by the header's endpoint id
(bits [9:2]) into the readiness bitmap entry of the domain decoded from
the header's source tile field (bits [23:19]), leaving all other bitmap
entries unchanged; the packet is then dispatched like any other: the
registered class-7 handler, if any, is invoked with the packet and its
size, and only when none is registered is the packet dropped.  (The
driver itself registers no class-7 handler, so in the default dispatch
table no handler runs.) -/
theorem class7_ready_updates_bitmap_then_dispatch (hnd : Nat → Bool)
    (ct : List Nat) (size : Nat) (rest : List Nat) (sh : Classifying.Shared)
    (h1 : 0 < size) (h2 : size ≤ OPTIMSOC_NA_MAX_PACKET_SIZE)
    (hcls : EXTRACT ((recvN size rest).1.getD 0 0)
              OPTIMSOC_CLASS_MSB OPTIMSOC_CLASS_LSB = OPTIMSOC_CLASS_NUM - 1)
    (hready : (((recvN size rest).1.getD 0 0) &&& 2) >>> 1 ≠ 0) :
    (Classifying.stepOne hnd ct (size :: rest) sh).2.1.ready
        (Classifying.optimsoc_get_tilerank ct
          (EXTRACT ((recvN size rest).1.getD 0 0) OPTIMSOC_SRC_MSB OPTIMSOC_SRC_LSB))
      = (sh.ready (Classifying.optimsoc_get_tilerank ct
           (EXTRACT ((recvN size rest).1.getD 0 0) OPTIMSOC_SRC_MSB OPTIMSOC_SRC_LSB))
         ||| 1 <<< EXTRACT ((recvN size rest).1.getD 0 0) 9 2) % 2 ^ 32
    ∧ (∀ d, d ≠ Classifying.optimsoc_get_tilerank ct
          (EXTRACT ((recvN size rest).1.getD 0 0) OPTIMSOC_SRC_MSB OPTIMSOC_SRC_LSB) →
        (Classifying.stepOne hnd ct (size :: rest) sh).2.1.ready d = sh.ready d)
    ∧ (hnd (OPTIMSOC_CLASS_NUM - 1) = true →
        (Classifying.stepOne hnd ct (size :: rest) sh).2.1.events
          = sh.events ++ [Classifying.Event.invoked (OPTIMSOC_CLASS_NUM - 1)
              ((recvN size rest).1 ++ sh.buffer.drop size) size])
    ∧ (hnd (OPTIMSOC_CLASS_NUM - 1) = false →
        (Classifying.stepOne hnd ct (size :: rest) sh).2.1.events
          = sh.events ++ [Classifying.Event.dropUnknown (OPTIMSOC_CLASS_NUM - 1)]) := by
  have h0 : ¬ size = 0 := by omega
  have h32 : ¬ size > OPTIMSOC_NA_MAX_PACKET_SIZE := by omega
  have hhd : ((recvN size rest).1 ++ sh.buffer.drop size).getD 0 0
      = (recvN size rest).1.getD 0 0 :=
    getD_append_left _ _ (recvN_fst_ne_nil size rest h1)
  refine ⟨?_, ?_, ?_, ?_⟩
  · simp only [Classifying.stepOne, if_neg h0, if_neg h32, hhd]
    split
    all_goals
      split
      · simp
      · next hC => exact absurd ⟨hcls, hready⟩ hC
  · intro d hd
    simp only [Classifying.stepOne, if_neg h0, if_neg h32, hhd]
    split
    all_goals
      split
      · exact if_neg hd
      · next hC => exact absurd ⟨hcls, hready⟩ hC
  · intro hreg
    simp only [Classifying.stepOne, if_neg h0, if_neg h32, hhd, hcls, hreg]
    split
    · split
      · rfl
      · next hC => exact absurd ⟨trivial, hready⟩ hC
    · simp_all
  · intro hreg
    simp only [Classifying.stepOne, if_neg h0, if_neg h32, hhd, hcls, hreg]
    split
    · simp_all
    · split
      · rfl
      · next hC => exact absurd ⟨trivial, hready⟩ hC

theorem class7_ready_updates_bitmap_witness :
    (0 : Nat) < 1
    ∧ (Classifying.stepOne (fun c => c == 7) [1] (1 :: [0x0708000E])
         ⟨[], fun _ => 0, []⟩).2.1.ready
         (Classifying.optimsoc_get_tilerank [1]
           (EXTRACT ((recvN 1 [0x0708000E]).1.getD 0 0) OPTIMSOC_SRC_MSB OPTIMSOC_SRC_LSB))
        = ((Classifying.Shared.mk [] (fun _ => 0) []).ready
             (Classifying.optimsoc_get_tilerank [1]
               (EXTRACT ((recvN 1 [0x0708000E]).1.getD 0 0) OPTIMSOC_SRC_MSB OPTIMSOC_SRC_LSB))
           ||| 1 <<< EXTRACT ((recvN 1 [0x0708000E]).1.getD 0 0) 9 2) % 2 ^ 32
    ∧ (Classifying.stepOne (fun c => c == 7) [1] (1 :: [0x0708000E])
         ⟨[], fun _ => 0, []⟩).2.1.events
        = (Classifying.Shared.mk [] (fun _ => 0) []).events
          ++ [Classifying.Event.invoked (OPTIMSOC_CLASS_NUM - 1)
               ((recvN 1 [0x0708000E]).1
                 ++ (Classifying.Shared.mk [] (fun _ => 0) []).buffer.drop 1) 1] :=
  ⟨by decide,
   (class7_ready_updates_bitmap_then_dispatch (fun c => c == 7) [1] 1 [0x0708000E]
      ⟨[], fun _ => 0, []⟩ (by decide) (by decide) (by decide) (by decide)).1,
   (class7_ready_updates_bitmap_then_dispatch (fun c => c == 7) [1] 1 [0x0708000E]
      ⟨[], fun _ => 0, []⟩ (by decide) (by decide) (by decide) (by decide)).2.2.1 (by decide)⟩

theorem buffering_irq_handler_eq (s : List Buffering.Ep) :
    Buffering.irq_handler s
      = if (Buffering.passA s).2 = s.length then (Buffering.passA s).1
        else Buffering.irq_handler (Buffering.passA s).1 := by
  rw [Buffering.irq_handler]

theorem classifying_irq_handler_eq (hnd : Nat → Bool) (ct : List Nat)
    (st : List (List Nat) × Classifying.Shared) :
    Classifying.irq_handler hnd ct st
      = if (Classifying.passB hnd ct st.1 st.2).2.2 = st.1.length
        then ((Classifying.passB hnd ct st.1 st.2).1,
              (Classifying.passB hnd ct st.1 st.2).2.1)
        else Classifying.irq_handler hnd ct
              ((Classifying.passB hnd ct st.1 st.2).1,
               (Classifying.passB hnd ct st.1 st.2).2.1) := by
  rw [Classifying.irq_handler]

/-- C5: in both variants, the interrupt handler's scan loop returns
exactly after the first complete pass in which every endpoint observes a
length word of 0: there is a pass index k such that every earlier pass
saw some endpoint with a nonzero length word, pass k observes all
endpoints empty, and the handler's result is the state after performing
exactly k + 1 passes.  (Since each non-empty pass consumes at least one
word from the finite FIFO contents, such a pass always exists in this
model; unbounded hardware input is exactly the case in which the C loop
would not return.) -/
theorem irq_scan_stops_at_first_all_empty_pass :
    (∀ s : List Buffering.Ep, ∃ k,
      (∀ j, j < k → ¬ ∀ e ∈ Buffering.passIter^[j] s, obsEmpty e.fifo = true) ∧
      (∀ e ∈ Buffering.passIter^[k] s, obsEmpty e.fifo = true) ∧
      Buffering.irq_handler s = Buffering.passIter^[k + 1] s)
    ∧ (∀ (hnd : Nat → Bool) (ct : List Nat)
         (st : List (List Nat) × Classifying.Shared), ∃ k,
      (∀ j, j < k → ¬ ∀ f ∈ ((Classifying.passIter hnd ct)^[j] st).1, obsEmpty f = true) ∧
      (∀ f ∈ ((Classifying.passIter hnd ct)^[k] st).1, obsEmpty f = true) ∧
      Classifying.irq_handler hnd ct st = (Classifying.passIter hnd ct)^[k + 1] st) := by
  constructor
  · intro s
    apply loop_first_quiescent Buffering.passIter
      (fun t => ∀ e ∈ t, obsEmpty e.fifo = true) Buffering.totalWords
      Buffering.irq_handler
    · intro t
      rw [buffering_irq_handler_eq]
      exact if_congr (Buffering.passA_snd_eq_length_iff t) rfl rfl
    · intro t h
      exact Buffering.passA_words_lt t
        (fun hc => h ((Buffering.passA_snd_eq_length_iff t).mp hc))
  · intro hnd ct st
    apply loop_first_quiescent (Classifying.passIter hnd ct)
      (fun t => ∀ f ∈ t.1, obsEmpty f = true) (fun t => totalLen t.1)
      (Classifying.irq_handler hnd ct)
    · intro t
      rw [classifying_irq_handler_eq]
      exact if_congr (Classifying.passB_cnt_eq_length_iff hnd ct t.1 t.2) rfl rfl
    · intro t h
      exact Classifying.passB_words_lt hnd ct t.1 t.2
        (fun hc => h ((Classifying.passB_cnt_eq_length_iff hnd ct t.1 t.2).mp hc))

end OptimsocNoc
